import Mathlib

/-!
Verification development for the fail-safe email worker.

The definitions below are a shallow embedding of the worker's JavaScript
source (the agent worker entrypoint, the legacy forward-only worker, the
agent's verdict shaping in `agent.js`, and the Mailgun request building in
`sendWithMailgun`).  Pure string processing is modelled on `List Char`
(JavaScript strings), stateful behaviour of one pipeline run is modelled as
a pure function from the run's environment and external outcomes to the
list of side-effect events the run performs, in order.
-/

namespace MailSentinel

/-! ## JavaScript string primitives

These model the handful of JavaScript string operations the worker uses:
`\s` / `trim` whitespace, `toLowerCase`, `startsWith`, truthiness of
strings (`""` is falsy) and of possibly-undefined values, and `a || b`
defaulting. -/

/-- The ASCII whitespace characters matched by JavaScript `\s` and `trim`. -/
def isWs (c : Char) : Bool :=
  c == ' ' || c == '\t' || c == '\n' || c == '\r' || c == '\x0b' || c == '\x0c'

/-- Predicate `isStart pat l` is true when the character list `l` begins with `pat`
(JavaScript `startsWith` / a literal regex match at the current position). -/
def isStart : List Char → List Char → Bool
  | [], _ => true
  | _ :: _, [] => false
  | p :: ps, c :: cs => p == c && isStart ps cs

/-- Case-insensitive literal match: consume `pat` from the front of `l`
(comparing lower-cased characters, as a `/.../i` regex literal does) and
return the remainder, or `none` when `l` does not start with `pat`. -/
def ciEat : List Char → List Char → Option (List Char)
  | [], l => some l
  | _ :: _, [] => none
  | p :: ps, c :: cs => if p.toLower == c.toLower then ciEat ps cs else none

/-- JavaScript `String.prototype.trim` on a character list. -/
def trimList (l : List Char) : List Char :=
  ((l.dropWhile isWs).reverse.dropWhile isWs).reverse

/-- JavaScript `String.prototype.trim`. -/
def jsTrim (s : String) : String := ⟨trimList s.data⟩

/-- JavaScript `String.prototype.toLowerCase` (ASCII). -/
def jsToLower (s : String) : String := ⟨s.data.map Char.toLower⟩

/-- JavaScript `s.startsWith(pre)`. -/
def jsStarts (s pre : String) : Bool := isStart pre.data s.data

/-- Truthiness of a JavaScript string: `""` is falsy. -/
def strTruthy (s : String) : Bool := !s.data.isEmpty

/-- Truthiness of a possibly-undefined JavaScript string value
(`undefined` and `""` are falsy). -/
def optTruthy : Option String → Bool
  | none => false
  | some s => strTruthy s

/-- JavaScript `a || d` for a possibly-undefined string `a` and a string
default `d`. -/
def jsOrStr (a : Option String) (d : String) : String :=
  match a with
  | some s => if strTruthy s then s else d
  | none => d

/-- Normalise a possibly-undefined JavaScript string to `some` only when
truthy: the value of `x` in `if (x) { ... }` guards over `x = a`. -/
def truthyOpt : Option String → Option String
  | some s => if strTruthy s then some s else none
  | none => none

/-- JavaScript `s.split(sep)` for a single-character separator. -/
def splitOnChar (sep : Char) : List Char → List (List Char)
  | [] => [[]]
  | c :: tl =>
    let r := splitOnChar sep tl
    if c == sep then [] :: r
    else
      match r with
      | h :: t => (c :: h) :: t
      | [] => [[c]]

/-! ## Router

Embeds the target-resolution prologue of the worker's `email` handler
(identical in the agent worker and the legacy worker):

```js
const recipient = message.to.toLowerCase();
let targetEmail = emailRouting[recipient];
if (!targetEmail) {
  const domain = recipient.split('@')[1];
  if (domain) targetEmail = emailRouting[`@${domain}`];
}
if (!targetEmail) targetEmail = emailRouting['@default'];
if (!targetEmail) { /* routing miss */ }
```

A routing table is an association list; `routeLookup` is the property
access `emailRouting[key]` (`none` = `undefined`).  `resolveTarget`
returns `some target` exactly when the handler proceeds with a truthy
`targetEmail`, and `none` for the routing-miss path. -/

/-- Lookup `emailRouting[key]`: property access on the routing object. -/
def routeLookup (routing : List (String × String)) (key : String) : Option String :=
  List.lookup key routing

/-- Models `recipient.split('@')[1]` followed by the `if (domain)` truthiness
guard: the text between the first `'@'` and the next `'@'` (or the end),
provided it is non-empty. -/
def domainOf (recipient : String) : Option String :=
  match splitOnChar '@' recipient.data with
  | _ :: d :: _ => if d.isEmpty then none else some (String.mk d)
  | _ => none

/-- The catch-all tier: look up `"@" + domain` when a domain was derived. -/
def catchAllLookup (routing : List (String × String)) (recipient : String) : Option String :=
  match domainOf recipient with
  | some d => routeLookup routing ("@" ++ d)
  | none => none

/-- Target resolution: lower-case the recipient, then try the exact key,
the `@domain` catch-all, and the `@default` key, each tier taken only when
its value is truthy; `none` is the routing miss. -/
def resolveTarget (routing : List (String × String)) (toAddr : String) : Option String :=
  let recipient := jsToLower toAddr
  let exact := routeLookup routing recipient
  if optTruthy exact then exact
  else
    let catchAll := catchAllLookup routing recipient
    if optTruthy catchAll then catchAll
    else
      let dflt := routeLookup routing "@default"
      if optTruthy dflt then dflt else none

/-! ## Body extractor

Embeds `extractPlainTextBody(emailContent)` from the agent worker.  The
JavaScript uses a handful of regexes; each is modelled by a deterministic
scanner with the same semantics on the regex's input:

* `/(.*?)(?:\r?\n){2,}(.*)/s` — split at the first run of two or more
  line breaks (`\r\n` or `\n`), the `{2,}` consuming the whole run
  greedily (`splitHB`);
* `/Content-Type:\s*multipart\/[^;]+;\s*boundary="?([^"\r\n\s]+)"?/i` —
  extract a multipart boundary from the header block (`boundaryOf`);
* splitting the body on `--boundary` optionally followed by `--`
  (`splitParts`);
* `/Content-Type:\s*text\/plain/i` and friends — case-insensitive
  substring search (`hasCt`);
* `/(?:.*?)(?:\r?\n){2,}(.*?)(?:\r?\n--|$)/s` — a part's content after
  its headers, up to the next line-break-plus-`--` (`partBody`; the
  `|| part.match(/(?:.*?)(?:\r?\n){2,}(.*)/s)` fallback in the source
  succeeds exactly when the first regex does, so it never contributes);
* `"--" + \s* + end-of-string` removal on an already-trimmed string (`dropTrailingDashes`);
* `/<[^>]+>/g` tag stripping and the sequential entity replacements. -/

/-- Consume one `\r?\n` line break. -/
def eatNewline : List Char → Option (List Char)
  | '\r' :: '\n' :: rest => some rest
  | '\n' :: rest => some rest
  | _ => none

/-- Consume a maximal run of `\r?\n` line breaks (the greedy `{2,}` tail). -/
def eatNewlines : List Char → List Char
  | '\r' :: '\n' :: rest => eatNewlines rest
  | '\n' :: rest => eatNewlines rest
  | l => l

/-- Consume at least two line breaks, then the rest of the run. -/
def eatBlank (l : List Char) : Option (List Char) :=
  match eatNewline l with
  | some r =>
    match eatNewline r with
    | some r2 => some (eatNewlines r2)
    | none => none
  | none => none

/-- Regex `(.*?)(?:\r?\n){2,}(.*)` with the `s` flag: the text before the first blank-line run
and the text after the whole run, or `none` when no blank-line run exists. -/
def splitHB : List Char → Option (List Char × List Char)
  | [] => none
  | c :: tl =>
    match eatBlank (c :: tl) with
    | some rest => some ([], rest)
    | none => (splitHB tl).map fun p => (c :: p.1, p.2)

/-- The content before the first `\r?\n--` (a part's terminator inside
`/(.*?)(?:\r?\n--|$)/s`), or everything when there is none. -/
def takeUntilEndMarker : List Char → List Char
  | [] => []
  | c :: tl =>
    if isStart ['\r', '\n', '-', '-'] (c :: tl) || isStart ['\n', '-', '-'] (c :: tl) then []
    else c :: takeUntilEndMarker tl

/-- Models `part.match` of `(?:.*?)(?:\r?\n){2,}(.*?)(?:\r?\n--|$)` (flag `s`): group 1, the
part's content between its headers and the next boundary line or the end. -/
def partBody (part : List Char) : Option (List Char) :=
  (splitHB part).map fun p => takeUntilEndMarker p.2

/-- The `text.replace` of the pattern `"--" + \s* + end-of-string` with
`""`, applied to an already-trimmed `text`: remove a trailing `--`. -/
def dropTrailingDashes (l : List Char) : List Char :=
  match l.reverse with
  | '-' :: '-' :: r => r.reverse
  | _ => l

/-- Applies `partBodyMatch[1].trim()` then the trailing-dashes removal and a
final `.trim()`. -/
def cleanPart (l : List Char) : List Char :=
  trimList (dropTrailingDashes (trimList l))

/-- Match `/Content-Type:\s*<sub>/i` at the head of `l`. -/
def matchCtAt (sub l : List Char) : Bool :=
  match ciEat "Content-Type:".data l with
  | some r => (ciEat sub (r.dropWhile isWs)).isSome
  | none => false

/-- Models `part.match` of `Content-Type:\s*<sub>` (flag `i`): the pattern occurs somewhere
in `part`. -/
def hasCt (sub : List Char) : List Char → Bool
  | [] => false
  | c :: tl => matchCtAt sub (c :: tl) || hasCt sub tl

/-- After `boundary=` and an optional `"`: take the maximal non-empty run
of characters outside `["\r\n\s]` (regex class `[^"\r\n\s]+`). -/
def boundaryChars (l : List Char) : Option (List Char) :=
  let cs := l.takeWhile fun c => !(c == '"' || isWs c)
  if cs.isEmpty then none else some cs

/-- Regex `[^;]+;`: skip at least one non-`;` character up to and over the first
`;`, returning the remainder. -/
def overSemi : List Char → Option (List Char)
  | [] => none
  | ';' :: _ => none
  | _ :: tl =>
    let rec go : List Char → Option (List Char)
      | [] => none
      | ';' :: r => some r
      | _ :: r => go r
    go tl

/-- Match the boundary regex at the head of the header block. -/
def boundaryAt (l : List Char) : Option (List Char) :=
  match ciEat "Content-Type:".data l with
  | none => none
  | some r1 =>
    match ciEat "multipart/".data (r1.dropWhile isWs) with
    | none => none
    | some r2 =>
      match overSemi r2 with
      | none => none
      | some r3 =>
        match ciEat "boundary=".data (r3.dropWhile isWs) with
        | none => none
        | some r4 =>
          let r5 := match r4 with
            | '"' :: rest => rest
            | _ => r4
          boundaryChars r5

/-- Models the `headers.match` of the boundary regex
`Content-Type:\s*multipart\/[^;]+;\s*boundary="?([^"\r\n\s]+)"?` (flag `i`)
followed by `boundary.trim()` (a no-op, since the class excludes
whitespace, but kept faithful to the source). -/
def boundaryOf : List Char → Option (List Char)
  | [] => none
  | c :: tl =>
    match boundaryAt (c :: tl) with
    | some b => some (trimList b)
    | none => boundaryOf tl

/-- Fuel-driven worker for `splitParts`; the fuel bound `l.length + 1`
always suffices, since every step consumes at least one character. -/
def splitPartsGo (marker : List Char) : Nat → List Char → List Char → List (List Char)
  | 0, cur, l => [cur.reverse ++ l]
  | Nat.succ f, cur, l =>
    if isStart marker l then
      let r := l.drop marker.length
      let r := if isStart ['-', '-'] r then r.drop 2 else r
      cur.reverse :: splitPartsGo marker f [] r
    else
      match l with
      | [] => [cur.reverse]
      | c :: tl => splitPartsGo marker f (c :: cur) tl

/-- Models `body.split(new RegExp('--' + escapedBoundary + '(?:--)?', 'g'))`:
split the body at each occurrence of `--boundary`, also consuming an
immediately following `--` (the closing marker). -/
def splitParts (boundary body : List Char) : List (List Char) :=
  splitPartsGo ('-' :: '-' :: boundary) (body.length + 1) [] body

/-- The shared body processing of the `text/plain` and `text/*` loops:
extract the part's content, trim it, strip a trailing `--`, and keep the
result only when non-empty. -/
def partText (part : List Char) : Option (List Char) :=
  match partBody part with
  | some t => let c := cleanPart t; if c.isEmpty then none else some c
  | none => none

/-- Models the global `text.replace` of `<[^>]+>` with the empty string: remove every `<...>` span with at
least one character between the brackets; the worker `stripAfterGt`
returns the remainder after the first `>` when one exists. -/
def stripAfterGt : List Char → Option (List Char)
  | [] => none
  | '>' :: _ => none
  | _ :: tl =>
    let rec go : List Char → Option (List Char)
      | [] => none
      | '>' :: r => some r
      | _ :: r => go r
    go tl

/-- Fuel-driven tag stripping (`/<[^>]+>/g`). -/
def stripTagsGo : Nat → List Char → List Char
  | 0, l => l
  | Nat.succ f, l =>
    match l with
    | [] => []
    | '<' :: tl =>
      match stripAfterGt tl with
      | some rest => stripTagsGo f rest
      | none => '<' :: stripTagsGo f tl
    | c :: tl => c :: stripTagsGo f tl

def stripTags (l : List Char) : List Char := stripTagsGo l.length l

/-- Fuel-driven global literal replacement (`.replace(/lit/g, rep)` for a
literal pattern). -/
def replaceAllGo (pat rep : List Char) : Nat → List Char → List Char
  | 0, l => l
  | Nat.succ f, l =>
    if isStart pat l && !pat.isEmpty then rep ++ replaceAllGo pat rep f (l.drop pat.length)
    else
      match l with
      | [] => []
      | c :: tl => c :: replaceAllGo pat rep f tl

def replaceAll (pat rep l : List Char) : List Char := replaceAllGo pat rep l.length l

/-- The sequential entity replacements applied to the stripped HTML:
`&nbsp;` → space, `&amp;` → `&`, `&lt;` → `<`, `&gt;` → `>`,
`&quot;` → `"`. -/
def decodeEntities (l : List Char) : List Char :=
  replaceAll "&quot;".data "\"".data
    (replaceAll "&gt;".data ">".data
      (replaceAll "&lt;".data "<".data
        (replaceAll "&amp;".data "&".data
          (replaceAll "&nbsp;".data " ".data l))))

/-- The `text/html` loop's body processing: content, trim and `--`
cleanup, tag stripping, entity decoding, kept only when non-empty. -/
def htmlPartText (part : List Char) : Option (List Char) :=
  match partBody part with
  | some t =>
    let c := decodeEntities (stripTags (cleanPart t))
    if c.isEmpty then none else some c
  | none => none

/-- First loop: scan the parts in order for a `text/plain` part with
non-empty extracted content; empty parts are skipped. -/
def firstPlainPart : List (List Char) → Option (List Char)
  | [] => none
  | p :: ps =>
    if (trimList p).isEmpty then firstPlainPart ps
    else if hasCt "text/plain".data p then
      match partText p with
      | some t => some t
      | none => firstPlainPart ps
    else firstPlainPart ps

/-- Second loop: scan for a `text/html` part whose stripped, decoded
content is non-empty. -/
def firstHtmlPart : List (List Char) → Option (List Char)
  | [] => none
  | p :: ps =>
    if (trimList p).isEmpty then firstHtmlPart ps
    else if hasCt "text/html".data p then
      match htmlPartText p with
      | some t => some t
      | none => firstHtmlPart ps
    else firstHtmlPart ps

/-- Third loop: scan for any `text/*` part with non-empty content. -/
def firstTextPart : List (List Char) → Option (List Char)
  | [] => none
  | p :: ps =>
    if (trimList p).isEmpty then firstTextPart ps
    else if hasCt "text/".data p then
      match partText p with
      | some t => some t
      | none => firstTextPart ps
    else firstTextPart ps

/-- Function `extractPlainTextBody(emailContent)`: split headers from body at the
first blank line (whole trimmed input when absent); on a multipart
content type, prefer a `text/plain` part, then a `text/html` part with
tags stripped and entities decoded, then any `text/*` part; otherwise the
trimmed body. -/
def extractPlainTextBody (emailContent : String) : String :=
  match splitHB emailContent.data with
  | none => ⟨trimList emailContent.data⟩
  | some (headers, body) =>
    match boundaryOf headers with
    | none => ⟨trimList body⟩
    | some boundary =>
      let parts := splitParts boundary body
      match firstPlainPart parts with
      | some t => ⟨t⟩
      | none =>
        match firstHtmlPart parts with
        | some t => ⟨t⟩
        | none =>
          match firstTextPart parts with
          | some t => ⟨t⟩
          | none => ⟨trimList body⟩

/-! ## Pipeline data

The run's inputs: the immutable view of the inbound message, the worker
environment, and the outcomes of the external calls the run makes.  A
`none` in `EmailMessage.raw` models the raw-stream read throwing; the
header accessors `headers.get("subject")`, `Message-ID` (either casing)
and `Date` (either casing) are modelled as optional fields. -/

structure EmailMessage where
  /-- `message.from`. -/
  sender : String
  /-- `message.to`. -/
  toAddr : String
  /-- `message.headers.get("subject")`. -/
  subject : Option String
  /-- `message.headers.get("Message-ID") || message.headers.get("message-id")`. -/
  messageId : Option String
  /-- `message.headers.get("Date") || message.headers.get("date")`. -/
  date : Option String
  /-- The text of `message.raw`; `none` when reading the stream throws. -/
  raw : Option String
  deriving DecidableEq

structure Env where
  /-- `env.EMAIL_ROUTING || {}`. -/
  emailRouting : List (String × String)
  /-- Whether `env.RETAIL_EMAIL_AGENT` is configured. -/
  agentConfigured : Bool
  /-- `env.INTERNAL_FROM_EMAIL`. -/
  internalFromEmail : Option String
  /-- `env.MAILGUN_TAG`. -/
  mailgunTag : Option String
  /-- The value `new Date().toUTCString()` would produce during this run
  (used only as the last fallback for the quoted date). -/
  nowDate : String
  deriving DecidableEq

/-! ## Customer reply construction

Embeds `escapeHtml`, `formatQuotedPlain`, `formatQuotedHtml` and the pure
part of `sendReplyToCustomer` from the agent worker, and the form-field
construction of `sendWithMailgun` from the Mailgun adapter. -/

/-- Models `escapeHtml`: replace each of the characters in the class
matched by the global regex with its entity. -/
def escapeHtmlChar (c : Char) : List Char :=
  match c with
  | '&' => "&amp;".data
  | '<' => "&lt;".data
  | '>' => "&gt;".data
  | '"' => "&quot;".data
  | '\'' => "&#039;".data
  | _ => [c]

def escapeHtml (s : String) : String :=
  ⟨s.data.foldr (fun c acc => escapeHtmlChar c ++ acc) []⟩

/-- JavaScript `s.replaceAll("\n", "<br>")`. -/
def nlToBr (s : String) : String :=
  ⟨replaceAll "\n".data "<br>".data s.data⟩

/-- Join lines back with `"\n"` (JavaScript `Array.prototype.join("\n")`). -/
def joinLines : List (List Char) → List Char
  | [] => []
  | [x] => x
  | x :: xs => x ++ '\n' :: joinLines xs

/-- Models `formatQuotedPlain({date, from, body})`. -/
def formatQuotedPlain (date sender body : String) : String :=
  "\n\nOn " ++ date ++ ", " ++ sender ++ " wrote:\n\n" ++
    ⟨joinLines ((splitOnChar '\n' body.data).map fun line => "> ".data ++ line)⟩

/-- Models `formatQuotedHtml({date, from, body})`. -/
def formatQuotedHtml (date sender body : String) : String :=
  let escapedBody := nlToBr (escapeHtml body)
  jsTrim ("\n    <div style=\"border-left: 3px solid #ccc; padding-left: 12px; margin-top: 20px; color: #666; font-size: 13px;\">\n      <div style=\"margin-bottom: 8px;\">\n        <strong>On "
    ++ escapeHtml date ++ ", " ++ escapeHtml sender
    ++ " wrote:</strong>\n      </div>\n      <div style=\"white-space: pre-wrap;\">"
    ++ escapedBody ++ "</div>\n    </div>\n  ")

/-- The reply subject: keep the original when it already starts with
`re:` case-insensitively, otherwise put `Re: ` in front. -/
def normalizeSubject (originalSubject : String) : String :=
  if jsStarts (jsToLower originalSubject) "re:" then originalSubject
  else "Re: " ++ originalSubject

/-- The argument object handed to `sendWithMailgun`. -/
structure MailgunMessage where
  toAddr : String
  fromAddr : String
  subject : String
  text : String
  html : String
  headers : List (String × String)
  tag : Option String
  cc : Option String
  deriving DecidableEq

/-- The pure part of `sendReplyToCustomer`: everything it computes before
handing the message to `sendWithMailgun`. -/
def sendReplyToCustomerMsg (env : Env) (msg : EmailMessage)
    (replyContent originalSubject ccEmail originalBody : String) : MailgunMessage :=
  let replyTo := msg.sender
  let fromEmail := jsOrStr env.internalFromEmail msg.toAddr
  let subject := normalizeSubject originalSubject
  let originalMessageId := truthyOpt msg.messageId
  let headers : List (String × String) :=
    match originalMessageId with
    | some m => [("In-Reply-To", m), ("References", m)]
    | none => []
  let originalDate := jsOrStr msg.date env.nowDate
  let bodyText :=
    if strTruthy originalBody then originalBody
    else "[Original message body unavailable in this reply context]"
  let quotedPlain := formatQuotedPlain originalDate replyTo bodyText
  let htmlBody := jsTrim ("\n    <div style=\"font-family: Arial, sans-serif; font-size:14px; line-height:1.4;\">\n      <div>"
    ++ nlToBr (escapeHtml replyContent) ++ "</div>\n      "
    ++ formatQuotedHtml originalDate replyTo bodyText ++ "\n    </div>\n  ")
  let textBody := replyContent ++ "\n\n" ++ quotedPlain
  { toAddr := replyTo
    fromAddr := fromEmail
    subject := subject
    text := textBody
    html := htmlBody
    headers := headers
    tag := env.mailgunTag
    cc := some ccEmail }

/-- Helper for `if (x) params.set(key, x)` on a possibly-undefined field. -/
def optParam (key : String) (v : Option String) : List (String × String) :=
  match v with
  | some s => if strTruthy s then [(key, s)] else []
  | none => []

/-- The form fields `sendWithMailgun` sets on its `URLSearchParams`, in
order: `from`, `to`, `subject`, then `html`, `text` and `cc` when truthy,
then each custom header under an `h:`-prefixed name, then `o:tag` when a
tag is configured. -/
def mailgunParams (m : MailgunMessage) : List (String × String) :=
  [("from", m.fromAddr), ("to", m.toAddr), ("subject", m.subject)]
    ++ (if strTruthy m.html then [("html", m.html)] else [])
    ++ (if strTruthy m.text then [("text", m.text)] else [])
    ++ optParam "cc" m.cc
    ++ m.headers.map (fun kv => ("h:" ++ kv.1, kv.2))
    ++ optParam "o:tag" m.tag

/-! ## Analysis oracle verdict shaping

Embeds the result shaping of `RetailEmailAgent.analyzeAndReply`: the
oracle's raw structured output is validated field by field, and any throw
from the model call is caught and folded into a `canReply:false` verdict
carrying the error message. -/

/-- The oracle's raw structured output (`result.resolvedOutput`) as the
validation code observes it: `canReply` is `some b` only when the field is
present with type boolean, `reply` is `some r` only when present with
type string, likewise `reason`.  The value `{}` is `⟨none, none, none⟩`. -/
structure ParsedResponse where
  canReply : Option Bool
  reply : Option String
  reason : Option String
  deriving DecidableEq

/-- The verdict `analyzeAndReply` returns to the worker. -/
structure AnalysisResult where
  canReply : Bool
  replyContent : Option String
  reason : String
  deriving DecidableEq

/-- Models the validation and catch logic of `analyzeAndReply`: an
`Except.error e` is a thrown model call (caught by the enclosing
`try`/`catch`), an `Except.ok p` is a parsed response to validate. -/
def shapeAnalysis : Except String ParsedResponse → AnalysisResult
  | .error e =>
    { canReply := false
      replyContent := none
      reason := "Error during analysis: " ++ e }
  | .ok p =>
    match p.canReply with
    | none =>
      { canReply := false
        replyContent := none
        reason := "Invalid response format: missing or invalid 'canReply' field" }
    | some true =>
      match p.reply with
      | some r =>
        if strTruthy r then
          { canReply := true
            replyContent := some (jsTrim r)
            reason := "Agent generated a helpful reply using product information" }
        else
          { canReply := false
            replyContent := none
            reason := "Invalid response format: missing or invalid 'reply' field" }
      | none =>
        { canReply := false
          replyContent := none
          reason := "Invalid response format: missing or invalid 'reply' field" }
    | some false =>
      { canReply := false
        replyContent := none
        reason := jsOrStr p.reason "Email requires human attention" }

/-! ## Delivery orchestrator

The `email` handler of the agent worker, embedded as a pure function from
the environment, the inbound message, and the outcomes of the external
calls to the ordered list of side-effect events the run performs.  The
worker-side view of the analysis JSON is its truthiness projection: the
handler branches on `analysis.canReply && analysis.replyContent`. -/

/-- The worker-side view of the JSON body returned by the agent's
`/internal/analyze` endpoint: `canReply` is the truthiness of the
`canReply` field (`false` for `{}`), `replyContent` and `reason` are the
corresponding fields when present. -/
structure AnalysisJson where
  canReply : Bool
  replyContent : Option String
  reason : Option String
  deriving DecidableEq

/-- Outcomes of the run's external calls: whether the agent fetch and its
JSON parse succeed (and with which verdict), whether the Mailgun
customer-reply send succeeds, and whether `message.forward` succeeds.
Each run performs at most one forward, so one flag suffices. -/
structure World where
  agentCallOk : Bool
  analysis : AnalysisJson
  replySendOk : Bool
  forwardOk : Bool
  deriving DecidableEq

/-- One observable side effect of a run, in the order performed. -/
inductive Ev where
  /-- An attempted `message.forward(target)` and its outcome. -/
  | forwardAttempt (target : String) (ok : Bool)
  /-- An attempted Mailgun customer-reply send and its outcome. -/
  | replySend (msg : MailgunMessage) (ok : Bool)
  /-- A `saveEmailToR2` call; the metadata carries `message.from` and the
  resolved target. -/
  | backup (sender target : String)
  /-- A `sendDiscordAlert` call; its fields carry `message.from` and the
  resolved target (`none` on the routing-miss path). -/
  | alert (sender : String) (target : Option String)
  deriving DecidableEq

/-- The recurring failure ladder of the source: try
`message.forward(targetEmail)`; on a throw, `saveEmailToR2` then
`sendDiscordAlert`. -/
def forwardWithSafetyNet (w : World) (sender target : String) : List Ev :=
  if w.forwardOk then [.forwardAttempt target true]
  else
    [.forwardAttempt target false, .backup sender target, .alert sender (some target)]

/-- The agent worker's `email(message, env, ctx)` handler as an event
trace.  Branches, in source order: routing miss (alert only); raw-read
failure (bare forward with safety net); agent namespace not configured
(same); the agent call or JSON parse throwing (the outer catch: same);
the verdict's `canReply && replyContent` branch (customer reply via
Mailgun, with a bare forward as fallback and the safety net under it);
otherwise the plain-forward branch (bare forward with safety net). -/
def emailHandler (env : Env) (w : World) (msg : EmailMessage) : List Ev :=
  match resolveTarget env.emailRouting msg.toAddr with
  | none => [.alert msg.sender none]
  | some targetEmail =>
    match msg.raw with
    | none => forwardWithSafetyNet w msg.sender targetEmail
    | some content =>
      let emailBody := extractPlainTextBody content
      let emailSubject := jsOrStr msg.subject "No Subject"
      if !env.agentConfigured then forwardWithSafetyNet w msg.sender targetEmail
      else if !w.agentCallOk then forwardWithSafetyNet w msg.sender targetEmail
      else if w.analysis.canReply && optTruthy w.analysis.replyContent then
        let replyMsg := sendReplyToCustomerMsg env msg
          ((w.analysis.replyContent).getD "") emailSubject targetEmail emailBody
        if w.replySendOk then [.replySend replyMsg true]
        else .replySend replyMsg false :: forwardWithSafetyNet w msg.sender targetEmail
      else forwardWithSafetyNet w msg.sender targetEmail

/-- The legacy worker's `email` handler (forward-only variant): resolve,
forward, and on a throw back up and alert. -/
def legacyEmailHandler (env : Env) (w : World) (msg : EmailMessage) : List Ev :=
  match resolveTarget env.emailRouting msg.toAddr with
  | none => [.alert msg.sender none]
  | some targetEmail => forwardWithSafetyNet w msg.sender targetEmail

/-- Modelled from the spec: the deployment-time feature toggle of
section 6, which is missing from src/ (the repository's agent worker
performs no internal-transcript send and ships no such switch).  It
selects among "internal transcript only", "legacy forward only", or
"both" for the internal delivery path — a pure configuration switch
evaluated once per run, not part of the state machine's decision
logic. -/
inductive DeliveryToggle where
  | transcriptOnly
  | legacyOnly
  | both
  deriving DecidableEq

/-- Modelled from the spec: one side effect of the toggled delivery
pipeline (the section 4.6 state machine under the section 6 toggle),
distinguishing the two logically distinct sends — the customer reply and
the internal transcript to the resolved target (section 4.4) — from the
legacy bare forward, the fallback bare forward, and the safety-net
backup and alert. -/
inductive PipelineEv where
  | customerReply (ok : Bool)
  | transcript (target : String) (ok : Bool)
  | legacyForward (target : String) (ok : Bool)
  | fallbackForward (target : String) (ok : Bool)
  | backup (sender target : String)
  | alert (sender : String) (target : Option String)
  deriving DecidableEq

/-- Modelled from the spec: the outcomes of the toggled pipeline's
sends — the customer reply, the internal transcript, and the bare
forwards each produce a `DeliveryOutcome` independently. -/
structure PipelineWorld where
  replySendOk : Bool
  transcriptOk : Bool
  forwardOk : Bool
  deriving DecidableEq

/-- Modelled from the spec: the `Replying` branch of the delivery
orchestrator (section 4.6 step 4, `canReply = true`) under the toggle.
The customer-reply delivery is attempted, and the internal delivery path
then runs according to the toggle — the internal transcript, the legacy
bare forward, or both; since delivery outcomes are never allowed to
suppress each other (section 3) and the toggle is not part of the
decision logic, the internal sends are attempted whatever the
customer-reply outcome.  A failed customer reply has exactly one
fallback rung — the bare forward to the internal target — after the
transcript/reply sends (section 5's ordering), and backup plus alert
under it. -/
def replyBranchPipeline (toggle : DeliveryToggle) (w : PipelineWorld)
    (sender target : String) : List PipelineEv :=
  let internalPart : List PipelineEv :=
    match toggle with
    | .transcriptOnly => [.transcript target w.transcriptOk]
    | .legacyOnly => [.legacyForward target w.forwardOk]
    | .both => [.transcript target w.transcriptOk, .legacyForward target w.forwardOk]
  let fallbackPart : List PipelineEv :=
    if w.forwardOk then [.fallbackForward target true]
    else
      [.fallbackForward target false, .backup sender target,
        .alert sender (some target)]
  if w.replySendOk then .customerReply true :: internalPart
  else .customerReply false :: internalPart ++ fallbackPart

/-- The event is an internal-transcript send attempt. -/
def PipelineEv.isTranscript : PipelineEv → Bool
  | .transcript _ _ => true
  | _ => false

/-! ## Event predicates used by the statements. -/

/-- The event is a backup-store write. -/
def Ev.isBackup : Ev → Bool
  | .backup _ _ => true
  | _ => false

/-- The event is an alert call. -/
def Ev.isAlert : Ev → Bool
  | .alert _ _ => true
  | _ => false

/-- The event is a delivery attempt (forward or Mailgun send), whatever
its outcome. -/
def Ev.isDeliveryAttempt : Ev → Bool
  | .forwardAttempt _ _ => true
  | .replySend _ _ => true
  | _ => false

/-- The event is a successful delivery whose primary recipient is `who`. -/
def Ev.deliversTo (who : String) : Ev → Bool
  | .forwardAttempt t ok => ok && t == who
  | .replySend m ok => ok && m.toAddr == who
  | _ => false

/-! ## Concrete fixtures

Concrete messages, environments and worlds used to instantiate the
theorems below. -/

/-- A multipart message with both a `text/plain` part (`Hi`) and a
`text/html` part (`<p>Hi</p>`). -/
def mpBoth : String :=
  "Content-Type: multipart/alternative; boundary=XYZ\r\n\r\n--XYZ\r\nContent-Type: text/plain\r\n\r\nHi\r\n--XYZ\r\nContent-Type: text/html\r\n\r\n<p>Hi</p>\r\n--XYZ--"

/-- The same message with the `text/plain` part removed. -/
def mpHtmlOnly : String :=
  "Content-Type: multipart/alternative; boundary=XYZ\r\n\r\n--XYZ\r\nContent-Type: text/html\r\n\r\n<p>Hi</p>\r\n--XYZ--"

/-- A multipart message whose only textual part is `text/enriched`. -/
def mpEnrichedOnly : String :=
  "Content-Type: multipart/mixed; boundary=\"XYZ\"\r\n\r\n--XYZ\r\nContent-Type: text/enriched\r\n\r\nYo\r\n--XYZ--"

/-- A multipart message with a `text/enriched` part before a `text/html`
part: the html loop runs before the `text/*` loop. -/
def mpEnrichedAndHtml : String :=
  "Content-Type: multipart/mixed; boundary=XYZ\r\n\r\n--XYZ\r\nContent-Type: text/enriched\r\n\r\nYo\r\n--XYZ\r\nContent-Type: text/html\r\n\r\n<b>A &amp; B</b>\r\n--XYZ--"

/-- An environment with one exact routing rule and the agent configured. -/
def acmeEnv : Env :=
  { emailRouting := [("sales@acme.com", "ops@internal.test")]
    agentConfigured := true
    internalFromEmail := some "noreply@acme.test"
    mailgunTag := none
    nowDate := "Tue, 01 Oct 2024 00:00:00 GMT" }

/-- A readable inbound message carrying a `Message-ID`. -/
def priceMsg : EmailMessage :=
  { sender := "cust@mail.test"
    toAddr := "Sales@Acme.com"
    subject := some "Price?"
    messageId := some "<abc@domain>"
    date := none
    raw := some "Subject: Price?\r\n\r\nWhat is the price?" }

/-- The same message without a `Message-ID` header. -/
def noIdMsg : EmailMessage := { priceMsg with messageId := none }

/-- A world in which the agent produced a reply and the given send
outcomes occur. -/
def replyWorld (replySendOk forwardOk : Bool) : World :=
  { agentCallOk := true
    analysis := { canReply := true, replyContent := some "$199.99", reason := none }
    replySendOk := replySendOk
    forwardOk := forwardOk }

/-- A world in which the agent's JSON verdict is `{}`: no `canReply`
field, so its truthiness is false. -/
def emptyVerdictWorld : World :=
  { agentCallOk := true
    analysis := { canReply := false, replyContent := none, reason := none }
    replySendOk := true
    forwardOk := true }

/-! # Theorems -/

/-- C1: for every routing table and recipient, target resolution
lower-cases the recipient and returns the first hit in the precedence
order exact key, then `@domain`, then `@default`, and `none`
(`RoutingMiss`) when no tier hits; concretely, with all three tiers
present the exact match wins, removing the exact match falls back to the
catch-all, removing both falls back to the default, and removing all
three yields the miss. -/
theorem resolveTarget_precedence (routing : List (String × String)) (toAddr : String) :
    (optTruthy (routeLookup routing (jsToLower toAddr)) = true →
      resolveTarget routing toAddr = routeLookup routing (jsToLower toAddr))
    ∧ (optTruthy (routeLookup routing (jsToLower toAddr)) = false →
       optTruthy (catchAllLookup routing (jsToLower toAddr)) = true →
      resolveTarget routing toAddr = catchAllLookup routing (jsToLower toAddr))
    ∧ (optTruthy (routeLookup routing (jsToLower toAddr)) = false →
       optTruthy (catchAllLookup routing (jsToLower toAddr)) = false →
       optTruthy (routeLookup routing "@default") = true →
      resolveTarget routing toAddr = routeLookup routing "@default")
    ∧ (optTruthy (routeLookup routing (jsToLower toAddr)) = false →
       optTruthy (catchAllLookup routing (jsToLower toAddr)) = false →
       optTruthy (routeLookup routing "@default") = false →
      resolveTarget routing toAddr = none)
    ∧ resolveTarget
        [("sales@acme.com", "exact@x.test"), ("@acme.com", "catch@x.test"), ("@default", "def@x.test")]
        "Sales@Acme.com" = some "exact@x.test"
    ∧ resolveTarget [("@acme.com", "catch@x.test"), ("@default", "def@x.test")]
        "Sales@Acme.com" = some "catch@x.test"
    ∧ resolveTarget [("@default", "def@x.test")] "Sales@Acme.com" = some "def@x.test"
    ∧ resolveTarget [] "Sales@Acme.com" = none := by
  refine ⟨?_, ?_, ?_, ?_, by decide, by decide, by decide, by decide⟩
  · intro h1
    simp [resolveTarget, h1]
  · intro h1 h2
    simp [resolveTarget, h1, h2]
  · intro h1 h2 h3
    simp [resolveTarget, h1, h2, h3]
  · intro h1 h2 h3
    simp [resolveTarget, h1, h2, h3]

/-- Witness for C1 at a concrete table and recipient. -/
theorem resolveTarget_precedence_witness :
    resolveTarget [("a@b.c", "x@y.z")] "A@B.C"
      = routeLookup [("a@b.c", "x@y.z")] (jsToLower "A@B.C") :=
  (resolveTarget_precedence [("a@b.c", "x@y.z")] "A@B.C").1 (by decide)

/-- C10: routing lookup goes by truthiness of the mapped value, not key
presence: an entry mapping the lowercased recipient (or the derived
catch-all key) to the empty string is treated as absent, and resolution
falls through to the next tier. -/
theorem resolveTarget_falsy_falls_through :
    resolveTarget [("a@b.com", ""), ("@b.com", "ops@x.com")] "A@b.com" = some "ops@x.com"
    ∧ resolveTarget [("a@b.com", "")] "a@b.com" = none
    ∧ resolveTarget [("a@b.com", ""), ("@b.com", ""), ("@default", "d@x.com")] "a@b.com"
        = some "d@x.com"
    ∧ resolveTarget [("a@b.com", ""), ("@b.com", ""), ("@default", "")] "a@b.com" = none := by
  decide

/-- C8: subject normalization for the customer reply keeps a subject that
already starts with `re:` case-insensitively, prefixes `Re: ` otherwise,
and is idempotent. -/
theorem normalizeSubject_idempotent (s : String) :
    (jsStarts (jsToLower s) "re:" = true → normalizeSubject s = s)
    ∧ (jsStarts (jsToLower s) "re:" = false → normalizeSubject s = "Re: " ++ s)
    ∧ normalizeSubject (normalizeSubject s) = normalizeSubject s := by
  have key : ∀ t : String, jsStarts (jsToLower ("Re: " ++ t)) "re:" = true := fun t => rfl
  refine ⟨fun h => by simp [normalizeSubject, h], fun h => by simp [normalizeSubject, h], ?_⟩
  by_cases h : jsStarts (jsToLower s) "re:" = true
  · simp [normalizeSubject, h]
  · have h' : jsStarts (jsToLower s) "re:" = false := by
      simpa using h
    have houter : normalizeSubject s = "Re: " ++ s := by simp [normalizeSubject, h']
    rw [houter]
    simp [normalizeSubject, key s]

/-- Witness for C8 at a concrete subject. -/
theorem normalizeSubject_idempotent_witness :
    normalizeSubject "RE: order" = "RE: order" :=
  (normalizeSubject_idempotent "RE: order").1 (by decide)

/-- C5: on a routing miss the run terminates immediately with exactly one
alert and nothing else: no backup write, no delivery attempt of any kind,
no retry. -/
theorem routing_miss_alert_only (env : Env) (w : World) (msg : EmailMessage)
    (h : resolveTarget env.emailRouting msg.toAddr = none) :
    emailHandler env w msg = [Ev.alert msg.sender none]
    ∧ (emailHandler env w msg).filter Ev.isBackup = []
    ∧ (emailHandler env w msg).filter Ev.isDeliveryAttempt = []
    ∧ (emailHandler env w msg).filter Ev.isAlert = [Ev.alert msg.sender none] := by
  have ht : emailHandler env w msg = [Ev.alert msg.sender none] := by
    unfold emailHandler
    rw [h]
  refine ⟨ht, ?_, ?_, ?_⟩ <;> rw [ht] <;> rfl

/-- Witness for C5: an empty routing table misses. -/
theorem routing_miss_alert_only_witness :
    emailHandler { acmeEnv with emailRouting := [] } (replyWorld true true) priceMsg
      = [Ev.alert priceMsg.sender none] :=
  (routing_miss_alert_only { acmeEnv with emailRouting := [] } (replyWorld true true) priceMsg
    (by decide)).1

/-- C2: when a target resolves, the agent produced a reply, the Mailgun
customer-reply send throws, and the fallback bare forward also throws,
the run performs exactly one backup write and one alert call, both
carrying the original sender and the resolved target, and no delivery to
the customer succeeds. -/
theorem reply_and_fallback_failure_backup_alert
    (env : Env) (w : World) (msg : EmailMessage) (t content : String)
    (hres : resolveTarget env.emailRouting msg.toAddr = some t)
    (hraw : msg.raw = some content)
    (hagent : env.agentConfigured = true)
    (hcall : w.agentCallOk = true)
    (hcan : w.analysis.canReply = true)
    (hrc : optTruthy w.analysis.replyContent = true)
    (hreply : w.replySendOk = false)
    (hfwd : w.forwardOk = false) :
    (emailHandler env w msg).filter Ev.isBackup = [Ev.backup msg.sender t]
    ∧ (emailHandler env w msg).filter Ev.isAlert = [Ev.alert msg.sender (some t)]
    ∧ (emailHandler env w msg).filter (Ev.deliversTo msg.sender) = [] := by
  have ht : emailHandler env w msg =
      [Ev.replySend (sendReplyToCustomerMsg env msg ((w.analysis.replyContent).getD "")
          (jsOrStr msg.subject "No Subject") t (extractPlainTextBody content)) false,
        Ev.forwardAttempt t false, Ev.backup msg.sender t, Ev.alert msg.sender (some t)] := by
    unfold emailHandler
    rw [hres, hraw]
    simp [hagent, hcall, hcan, hrc, hreply, forwardWithSafetyNet, hfwd]
  rw [ht]
  refine ⟨rfl, rfl, ?_⟩
  simp [Ev.deliversTo]

/-- Witness for C2 at the concrete fixtures. -/
theorem reply_and_fallback_failure_backup_alert_witness :
    (emailHandler acmeEnv (replyWorld false false) priceMsg).filter Ev.isBackup
      = [Ev.backup priceMsg.sender "ops@internal.test"]
    ∧ (emailHandler acmeEnv (replyWorld false false) priceMsg).filter Ev.isAlert
      = [Ev.alert priceMsg.sender (some "ops@internal.test")]
    ∧ (emailHandler acmeEnv (replyWorld false false) priceMsg).filter
        (Ev.deliversTo priceMsg.sender) = [] :=
  reply_and_fallback_failure_backup_alert acmeEnv (replyWorld false false) priceMsg
    "ops@internal.test" "Subject: Price?\r\n\r\nWhat is the price?"
    (by decide) (by decide) (by decide) (by decide) (by decide) (by decide)
    (by decide) (by decide)

/-- C3: in the reply branch, a failing customer-reply send still leads to
a bare-forward attempt to the resolved target (proved against the
source's handler); and in the spec-modelled toggled pipeline, when the
toggle selects running both internal delivery paths, the
internal-transcript send to the resolved target is attempted exactly
once whatever the customer-reply and forward outcomes — in particular
independently of the customer-reply outcome. -/
theorem reply_failure_still_forwards
    (env : Env) (w : World) (msg : EmailMessage) (t content : String)
    (hres : resolveTarget env.emailRouting msg.toAddr = some t)
    (hraw : msg.raw = some content)
    (hagent : env.agentConfigured = true)
    (hcall : w.agentCallOk = true)
    (hcan : w.analysis.canReply = true)
    (hrc : optTruthy w.analysis.replyContent = true) :
    (w.replySendOk = false → Ev.forwardAttempt t w.forwardOk ∈ emailHandler env w msg)
    ∧ (∀ (pw : PipelineWorld) (sender : String),
        (replyBranchPipeline DeliveryToggle.both pw sender t).filter PipelineEv.isTranscript
          = [PipelineEv.transcript t pw.transcriptOk]) := by
  constructor
  · intro hreply
    unfold emailHandler
    rw [hres, hraw]
    simp [hagent, hcall, hcan, hrc, hreply, forwardWithSafetyNet]
    cases hf : w.forwardOk <;> simp [hf]
  · intro pw sender
    unfold replyBranchPipeline
    cases hr : pw.replySendOk <;> cases hf : pw.forwardOk <;>
      simp [hr, hf, PipelineEv.isTranscript, List.filter]

/-- Witness for C3 at the concrete fixtures: the reply send fails, the
bare forward still occurs, and the transcript attempt of the toggled
pipeline is present despite the failed reply. -/
theorem reply_failure_still_forwards_witness :
    Ev.forwardAttempt "ops@internal.test" true
        ∈ emailHandler acmeEnv (replyWorld false true) priceMsg
    ∧ (replyBranchPipeline DeliveryToggle.both
          { replySendOk := false, transcriptOk := true, forwardOk := true }
          "cust@mail.test" "ops@internal.test").filter PipelineEv.isTranscript
        = [PipelineEv.transcript "ops@internal.test" true] := by
  have h := reply_failure_still_forwards acmeEnv (replyWorld false true) priceMsg
    "ops@internal.test" "Subject: Price?\r\n\r\nWhat is the price?"
    (by decide) (by decide) (by decide) (by decide) (by decide) (by decide)
  exact ⟨h.1 (by decide),
    h.2 { replySendOk := false, transcriptOk := true, forwardOk := true } "cust@mail.test"⟩

/-- The failure ladder never performs a Mailgun send: it only forwards,
backs up and alerts. -/
theorem replySend_not_mem_safetyNet (w : World) (s t : String) (m : MailgunMessage) (ok : Bool) :
    Ev.replySend m ok ∉ forwardWithSafetyNet w s t := by
  unfold forwardWithSafetyNet
  split <;> simp

/-- C4: a malformed oracle verdict or a throwing oracle invocation never
aborts the run.  On the agent side, a thrown model call is folded into
`canReply=false` with a non-empty diagnostic reason, and a verdict with
no boolean `canReply` field is replaced by the fixed diagnostic verdict.
On the worker side, a falsy `canReply` (as for the verdict `{}`) sends
the run down the plain-forward branch: a forward is attempted and no
customer send ever occurs; and even a throwing agent call (the outer
catch) still produces a forward attempt. -/
theorem oracle_failure_degrades_to_forward :
    (∀ e, (shapeAnalysis (Except.error e)).canReply = false
        ∧ strTruthy (shapeAnalysis (Except.error e)).reason = true)
    ∧ (∀ p : ParsedResponse, p.canReply = none →
        shapeAnalysis (Except.ok p)
          = ⟨false, none, "Invalid response format: missing or invalid 'canReply' field"⟩)
    ∧ (∀ (env : Env) (w : World) (msg : EmailMessage) (t content : String),
        resolveTarget env.emailRouting msg.toAddr = some t →
        msg.raw = some content →
        env.agentConfigured = true →
        w.agentCallOk = true →
        w.analysis.canReply = false →
        Ev.forwardAttempt t w.forwardOk ∈ emailHandler env w msg
        ∧ ∀ m ok, Ev.replySend m ok ∉ emailHandler env w msg)
    ∧ (∀ (env : Env) (w : World) (msg : EmailMessage) (t content : String),
        resolveTarget env.emailRouting msg.toAddr = some t →
        msg.raw = some content →
        env.agentConfigured = true →
        w.agentCallOk = false →
        Ev.forwardAttempt t w.forwardOk ∈ emailHandler env w msg) := by
  refine ⟨fun e => ⟨rfl, rfl⟩, fun p hp => by simp [shapeAnalysis, hp], ?_, ?_⟩
  · intro env w msg t content hres hraw hagent hcall hcan
    have ht : emailHandler env w msg = forwardWithSafetyNet w msg.sender t := by
      unfold emailHandler
      rw [hres, hraw]
      simp [hagent, hcall, hcan]
    rw [ht]
    refine ⟨?_, fun m ok => replySend_not_mem_safetyNet w msg.sender t m ok⟩
    unfold forwardWithSafetyNet
    cases hf : w.forwardOk <;> simp [hf]
  · intro env w msg t content hres hraw hagent hcall
    have ht : emailHandler env w msg = forwardWithSafetyNet w msg.sender t := by
      unfold emailHandler
      rw [hres, hraw]
      simp [hagent, hcall]
    rw [ht]
    unfold forwardWithSafetyNet
    cases hf : w.forwardOk <;> simp [hf]

/-- Witness for C4: with the `{}` verdict the concrete run forwards and
never sends to the customer. -/
theorem oracle_failure_degrades_to_forward_witness :
    Ev.forwardAttempt "ops@internal.test" emptyVerdictWorld.forwardOk
        ∈ emailHandler acmeEnv emptyVerdictWorld priceMsg
    ∧ ∀ m ok, Ev.replySend m ok ∉ emailHandler acmeEnv emptyVerdictWorld priceMsg :=
  oracle_failure_degrades_to_forward.2.2.1 acmeEnv emptyVerdictWorld priceMsg
    "ops@internal.test" "Subject: Price?\r\n\r\nWhat is the price?"
    (by decide) (by decide) (by decide) (by decide) (by decide)

/-- Every Mailgun send a run performs is the customer reply built by
`sendReplyToCustomerMsg` for the resolved target and the extracted body. -/
theorem replySend_mem_shape (env : Env) (w : World) (msg : EmailMessage)
    (m : MailgunMessage) (ok : Bool) (h : Ev.replySend m ok ∈ emailHandler env w msg) :
    ∃ t content, resolveTarget env.emailRouting msg.toAddr = some t
      ∧ msg.raw = some content
      ∧ m = sendReplyToCustomerMsg env msg ((w.analysis.replyContent).getD "")
          (jsOrStr msg.subject "No Subject") t (extractPlainTextBody content) := by
  unfold emailHandler at h
  cases hres : resolveTarget env.emailRouting msg.toAddr with
  | none =>
    rw [hres] at h
    simp at h
  | some t =>
    rw [hres] at h
    cases hraw : msg.raw with
    | none =>
      rw [hraw] at h
      simp [replySend_not_mem_safetyNet] at h
    | some content =>
      rw [hraw] at h
      cases hagent : env.agentConfigured with
      | false => simp [hagent, replySend_not_mem_safetyNet] at h
      | true =>
        cases hcall : w.agentCallOk with
        | false => simp [hagent, hcall, replySend_not_mem_safetyNet] at h
        | true =>
          cases hcond : w.analysis.canReply && optTruthy w.analysis.replyContent with
          | false => simp [hagent, hcall, hcond, replySend_not_mem_safetyNet] at h
          | true =>
            refine ⟨t, content, rfl, rfl, ?_⟩
            cases hr : w.replySendOk with
            | true =>
              simp [hagent, hcall, hcond, hr] at h
              exact h.1
            | false =>
              simp [hagent, hcall, hcond, hr, replySend_not_mem_safetyNet] at h
              exact h.1

/-- Every key set on the Mailgun form is one of the fixed field names or
an `h:`-prefixed custom header name. -/
theorem mailgunParams_keys (m : MailgunMessage) (kv : String × String)
    (h : kv ∈ mailgunParams m) :
    kv.1 = "from" ∨ kv.1 = "to" ∨ kv.1 = "subject" ∨ kv.1 = "html" ∨ kv.1 = "text"
    ∨ kv.1 = "cc" ∨ kv.1 = "o:tag" ∨ ∃ p ∈ m.headers, kv.1 = "h:" ++ p.1 := by
  unfold mailgunParams optParam at h
  simp only [List.mem_append, List.mem_cons, List.not_mem_nil, or_false, List.mem_map] at h
  rcases h with (((((h | h | h) | h) | h) | h) | ⟨p, hp, hkv⟩) | h
  · exact Or.inl (by rw [h])
  · exact Or.inr (Or.inl (by rw [h]))
  · exact Or.inr (Or.inr (Or.inl (by rw [h])))
  · split at h
    · simp at h
      exact Or.inr (Or.inr (Or.inr (Or.inl (by rw [h]))))
    · simp at h
  · split at h
    · simp at h
      exact Or.inr (Or.inr (Or.inr (Or.inr (Or.inl (by rw [h])))))
    · simp at h
  · rcases hc : m.cc with _ | c
    · rw [hc] at h
      simp at h
    · rw [hc] at h
      split at h
      · simp at h
        exact Or.inr (Or.inr (Or.inr (Or.inr (Or.inr (Or.inl (by rw [h.2]))))))
      · simp at h
  · exact Or.inr (Or.inr (Or.inr (Or.inr (Or.inr (Or.inr (Or.inr
      ⟨p, hp, by rw [← hkv]⟩))))))
  · rcases htg : m.tag with _ | tg
    · rw [htg] at h
      simp at h
    · rw [htg] at h
      split at h
      · simp at h
        exact Or.inr (Or.inr (Or.inr (Or.inr (Or.inr (Or.inr (Or.inl (by rw [h.2])))))))
      · simp at h

/-- C9: when the inbound message carries a truthy `Message-ID`, every
Mailgun send the run performs has both `h:In-Reply-To` and
`h:References` form fields set to exactly that id; when the header is
absent (or empty, hence falsy), no send carries either field. -/
theorem threading_headers_propagate (env : Env) (w : World) (msg : EmailMessage) :
    (∀ mid, truthyOpt msg.messageId = some mid →
      ∀ m ok, Ev.replySend m ok ∈ emailHandler env w msg →
        ("h:In-Reply-To", mid) ∈ mailgunParams m ∧ ("h:References", mid) ∈ mailgunParams m)
    ∧ (truthyOpt msg.messageId = none →
      ∀ m ok, Ev.replySend m ok ∈ emailHandler env w msg →
        ∀ v, ("h:In-Reply-To", v) ∉ mailgunParams m ∧ ("h:References", v) ∉ mailgunParams m) := by
  have happ1 : ("h:" ++ "In-Reply-To" : String) = "h:In-Reply-To" := by decide
  have happ2 : ("h:" ++ "References" : String) = "h:References" := by decide
  constructor
  · intro mid hmid m ok hmem
    obtain ⟨t, content, hres, hraw, hm⟩ := replySend_mem_shape env w msg m ok hmem
    have hh : m.headers = [("In-Reply-To", mid), ("References", mid)] := by
      rw [hm]
      simp [sendReplyToCustomerMsg, hmid]
    constructor
    · have hmap : ("h:In-Reply-To", mid)
          ∈ m.headers.map (fun kv => (("h:" ++ kv.1 : String), kv.2)) := by
        rw [hh]
        simp [happ1]
      unfold mailgunParams
      exact List.mem_append_left _ (List.mem_append_right _ hmap)
    · have hmap : ("h:References", mid)
          ∈ m.headers.map (fun kv => (("h:" ++ kv.1 : String), kv.2)) := by
        rw [hh]
        simp [happ2]
      unfold mailgunParams
      exact List.mem_append_left _ (List.mem_append_right _ hmap)
  · intro hmid m ok hmem v
    obtain ⟨t, content, hres, hraw, hm⟩ := replySend_mem_shape env w msg m ok hmem
    have hh : m.headers = [] := by
      rw [hm]
      simp [sendReplyToCustomerMsg, hmid]
    constructor <;> intro hv <;>
      rcases mailgunParams_keys m _ hv with h | h | h | h | h | h | h | ⟨p, hp, _⟩ <;>
      first
        | simp at h
        | (rw [hh] at hp; exact absurd hp (List.not_mem_nil p))

set_option maxRecDepth 100000 in
/-- Witness for C9: the concrete run's send carries the inbound id in
both `h:`-prefixed fields. -/
theorem threading_headers_propagate_witness :
    ("h:In-Reply-To", "<abc@domain>") ∈ mailgunParams
        (sendReplyToCustomerMsg acmeEnv priceMsg "$199.99" "Price?" "ops@internal.test"
          (extractPlainTextBody "Subject: Price?\r\n\r\nWhat is the price?"))
    ∧ ("h:References", "<abc@domain>") ∈ mailgunParams
        (sendReplyToCustomerMsg acmeEnv priceMsg "$199.99" "Price?" "ops@internal.test"
          (extractPlainTextBody "Subject: Price?\r\n\r\nWhat is the price?")) := by
  have h := (threading_headers_propagate acmeEnv (replyWorld true true) priceMsg).1
    "<abc@domain>" (by decide)
    (sendReplyToCustomerMsg acmeEnv priceMsg "$199.99" "Price?" "ops@internal.test"
      (extractPlainTextBody "Subject: Price?\r\n\r\nWhat is the price?"))
    true (by decide)
  exact h

/-- C6: multipart extraction prefers `text/plain`: with both a plain part
`Hi` and an html part `<p>Hi</p>` the result is `Hi` from the plain part;
the html part (tags stripped, entities decoded) is used only when no
plain part yields non-empty text, and any other `text/*` part only after
both, as the general precedence over the boundary-split parts states. -/
theorem multipart_plain_preference :
    extractPlainTextBody mpBoth = "Hi"
    ∧ extractPlainTextBody mpHtmlOnly = "Hi"
    ∧ extractPlainTextBody mpEnrichedOnly = "Yo"
    ∧ extractPlainTextBody mpEnrichedAndHtml = "A & B"
    ∧ (∀ (content : String) (headers body boundary : List Char),
        splitHB content.data = some (headers, body) →
        boundaryOf headers = some boundary →
        (∀ t, firstPlainPart (splitParts boundary body) = some t →
          extractPlainTextBody content = ⟨t⟩)
        ∧ (firstPlainPart (splitParts boundary body) = none →
          ∀ t, firstHtmlPart (splitParts boundary body) = some t →
            extractPlainTextBody content = ⟨t⟩)
        ∧ (firstPlainPart (splitParts boundary body) = none →
          firstHtmlPart (splitParts boundary body) = none →
          ∀ t, firstTextPart (splitParts boundary body) = some t →
            extractPlainTextBody content = ⟨t⟩)) := by
  refine ⟨by decide, by decide, by decide, by decide, ?_⟩
  intro content headers body boundary h1 h2
  refine ⟨?_, ?_, ?_⟩
  · intro t h3
    simp [extractPlainTextBody, h1, h2, h3]
  · intro hp t h3
    simp [extractPlainTextBody, h1, h2, hp, h3]
  · intro hp hh t h3
    simp [extractPlainTextBody, h1, h2, hp, hh, h3]

/-- Witness for C6: the general precedence applied to the concrete
two-part message returns the plain part. -/
theorem multipart_plain_preference_witness :
    extractPlainTextBody mpBoth = ⟨"Hi".data⟩ :=
  ((multipart_plain_preference.2.2.2.2 mpBoth
      "Content-Type: multipart/alternative; boundary=XYZ".data
      "--XYZ\r\nContent-Type: text/plain\r\n\r\nHi\r\n--XYZ\r\nContent-Type: text/html\r\n\r\n<p>Hi</p>\r\n--XYZ--".data
      "XYZ".data (by decide) (by decide)).1) "Hi".data (by decide)

/-- C7 counterexample: the non-multipart branch does not return
"everything after the first blank line" — the body is also trimmed.  For
the message `"H: v\r\n\r\nHello "` the text after the blank line is
`"Hello "`, but extraction returns `"Hello"`. -/
theorem extract_body_after_blank_cex :
    splitHB "H: v\r\n\r\nHello ".data = some ("H: v".data, "Hello ".data)
    ∧ extractPlainTextBody "H: v\r\n\r\nHello " ≠ "Hello "
    ∧ extractPlainTextBody "H: v\r\n\r\nHello " = "Hello" := by
  decide

/-- C7 as amended: extraction is total by construction; for a
non-multipart message it returns the text after the first blank-line run
trimmed of surrounding whitespace (so a message whose body is `"Hello"`
yields `"Hello"` exactly), and when no blank-line split exists it returns
the full trimmed input. -/
theorem extract_total_and_trimmed (s : String) :
    (splitHB s.data = none → extractPlainTextBody s = jsTrim s)
    ∧ (∀ headers body, splitHB s.data = some (headers, body) →
        boundaryOf headers = none → extractPlainTextBody s = ⟨trimList body⟩)
    ∧ extractPlainTextBody "X-H: v\r\n\r\nHello" = "Hello" := by
  refine ⟨?_, ?_, by decide⟩
  · intro h
    simp [extractPlainTextBody, h, jsTrim]
  · intro headers body h1 h2
    simp [extractPlainTextBody, h1, h2]

/-- Witness for C7's amended statement on an input with no blank line. -/
theorem extract_total_and_trimmed_witness :
    extractPlainTextBody "plain text, no blank line"
      = jsTrim "plain text, no blank line" :=
  (extract_total_and_trimmed "plain text, no blank line").1 (by decide)

end MailSentinel
